import Mathlib

/-!
Shallow embedding of the smoltrade trading engine core
(`autotrader/portfolio.py`, `autotrader/execution/{base,paper}.py`,
`autotrader/strategies/moving_average.py`, `autotrader/strategies/llm_agent.py`,
`autotrader/engine.py`) over exact rational arithmetic, together with
theorems settling the specification claims about it.

Python floats are modelled as `ℚ`; the `dict` of positions is modelled as an
association list mutated by the same insert / update-in-place / delete steps
the source performs; exceptions are modelled as explicit error values that
also carry the (possibly mutated) state the Python object would retain after
the exception propagates.
-/

namespace Autotrader

/-- The position-closure tolerance `1e-9` used by `Portfolio.update_on_fill`. -/
def tol : ℚ := 1 / 1000000000

/-- `autotrader/portfolio.py` — `Position`: an open position for one symbol. -/
structure Position where
  symbol : String
  quantity : ℚ := 0
  average_price : ℚ := 0
deriving Repr, DecidableEq

/-- `Position.market_value(price)`. -/
def Position.market_value (p : Position) (price : ℚ) : ℚ :=
  p.quantity * price

/-- `autotrader/portfolio.py` — `Portfolio`: cash balance plus the
symbol → position mapping (a Python `dict`, modelled as an association list
in insertion order). -/
structure Portfolio where
  starting_cash : ℚ
  cash : ℚ
  positions : List (String × Position)
deriving Repr, DecidableEq

/-- Embedding of Python `str.lower()`: ASCII case folding character by
character (all side strings the program compares are ASCII). -/
def strLower (s : String) : String := ⟨s.data.map Char.toLower⟩

/-- Association-list lookup, the embedding of `dict.get(key)`. -/
def alookup {β : Type} : List (String × β) → String → Option β
  | [], _ => none
  | kv :: rest, s => if kv.1 = s then some kv.2 else alookup rest s

/-- In-place update of the entry stored under `symbol`, the embedding of
mutating the `Position` object held in the `dict`. -/
def setPosition (positions : List (String × Position)) (symbol : String)
    (p : Position) : List (String × Position) :=
  positions.map (fun kv => if kv.1 = symbol then (kv.1, p) else kv)

/-- `Portfolio.get_position`. -/
def Portfolio.get_position (pf : Portfolio) (symbol : String) : Option Position :=
  alookup pf.positions symbol

/-- `Portfolio.position_size`: quantity held, `0` if no position exists. -/
def Portfolio.position_size (pf : Portfolio) (symbol : String) : ℚ :=
  match pf.get_position symbol with
  | some p => p.quantity
  | none => 0

/-- The exceptions `Portfolio.update_on_fill` can raise. -/
inductive FillError where
  | invalidSide
  | nonPositiveQuantity
  | invalidBuySize
  | oversell
deriving Repr, DecidableEq

/-- Result of a fill application: the optional exception raised, and the
state of the `Portfolio` object after the call returns or the exception
propagates (Python mutations before a `raise` survive it). -/
structure FillResult where
  error : Option FillError
  portfolio : Portfolio
deriving Repr, DecidableEq

/-- `Portfolio.update_on_fill(symbol, quantity, fill_price, side, commission)`,
line by line from `autotrader/portfolio.py` lines 41–78. -/
def Portfolio.update_on_fill (pf : Portfolio) (symbol : String)
    (quantity fill_price : ℚ) (side : String) (commission : ℚ) : FillResult :=
  let sideL := strLower side
  if sideL ≠ "buy" ∧ sideL ≠ "sell" then ⟨some .invalidSide, pf⟩
  else if quantity ≤ 0 then ⟨some .nonPositiveQuantity, pf⟩
  else
    -- `position = self.positions.get(symbol)`; when missing, a fresh
    -- zero-quantity Position is created and inserted into the dict.
    let found := alookup pf.positions symbol
    let position : Position := found.getD { symbol := symbol }
    let positions₁ :=
      match found with
      | some _ => pf.positions
      | none => pf.positions ++ [(symbol, ({ symbol := symbol } : Position))]
    if sideL = "buy" then
      let total_cost := quantity * fill_price + commission
      let new_quantity := position.quantity + quantity
      if new_quantity ≤ 0 then
        ⟨some .invalidBuySize, { pf with positions := positions₁ }⟩
      else
        let newPos : Position :=
          { position with
            average_price :=
              (position.quantity * position.average_price + quantity * fill_price)
                / new_quantity
            quantity := new_quantity }
        ⟨none,
          { pf with
            cash := pf.cash - total_cost
            positions := setPosition positions₁ symbol newPos }⟩
    else
      if position.quantity + tol < quantity then
        ⟨some .oversell, { pf with positions := positions₁ }⟩
      else
        let proceeds := quantity * fill_price - commission
        let newQty := position.quantity - quantity
        let positions₂ := setPosition positions₁ symbol { position with quantity := newQty }
        ⟨none,
          { pf with
            cash := pf.cash + proceeds
            positions :=
              if newQty ≤ tol then positions₂.filter (fun kv => kv.1 ≠ symbol)
              else positions₂ }⟩

/-- `Portfolio.market_value(prices)`: Σ quantity × price over positions whose
symbol has a price in the map; missing prices contribute nothing. -/
def Portfolio.market_value_map (pf : Portfolio) (prices : List (String × ℚ)) : ℚ :=
  (pf.positions.map (fun kv =>
    match alookup prices kv.2.symbol with
    | some pr => kv.2.quantity * pr
    | none => 0)).sum

/-- `Portfolio.total_equity(prices) = cash + market_value(prices)`. -/
def Portfolio.total_equity (pf : Portfolio) (prices : List (String × ℚ)) : ℚ :=
  pf.cash + pf.market_value_map prices

/-- `Portfolio.reset(cash?)`: clear all positions and reseed cash. -/
def Portfolio.reset (pf : Portfolio) (cash? : Option ℚ) : Portfolio :=
  match cash? with
  | none => { pf with cash := pf.starting_cash, positions := [] }
  | some c => { starting_cash := c, cash := c, positions := [] }

example :
    (Portfolio.update_on_fill ⟨1000, 1000, []⟩ "AAPL" 2 10 "buy" 1).portfolio.cash
      = 979 := by
  norm_num [Portfolio.update_on_fill, (by decide : strLower "buy" = "buy"),
    alookup, setPosition, tol]

example :
    (Portfolio.update_on_fill ⟨1000, 1000, []⟩ "AAPL" 1 10 "SELL" 0).error
      = some .oversell := by
  norm_num [Portfolio.update_on_fill, (by decide : strLower "SELL" = "sell"),
    alookup, tol]
  decide

example :
    (Portfolio.update_on_fill ⟨1000, 1000, []⟩ "AAPL" 1 10 "hold" 0).error
      = some .invalidSide := by
  norm_num [Portfolio.update_on_fill, (by decide : strLower "hold" = "hold")]
  decide

/-- One fill request, with the arguments `Portfolio.update_on_fill` takes. -/
structure Fill where
  symbol : String
  quantity : ℚ
  fill_price : ℚ
  side : String
  commission : ℚ
deriving Repr, DecidableEq

/-- Apply one fill request to the ledger. -/
def applyFill (pf : Portfolio) (f : Fill) : FillResult :=
  pf.update_on_fill f.symbol f.quantity f.fill_price f.side f.commission

/-- Apply a sequence of fills; `none` as soon as one raises. -/
def applyFills : Portfolio → List Fill → Option Portfolio
  | pf, [] => some pf
  | pf, f :: fs =>
    match (applyFill pf f).error with
    | some _ => none
    | none => applyFills (applyFill pf f).portfolio fs

/-- Σ over buy fills of `quantity × fill_price + commission`. -/
def buyNetSum : List Fill → ℚ
  | [] => 0
  | f :: fs =>
    (if strLower f.side = "buy" then f.quantity * f.fill_price + f.commission else 0)
      + buyNetSum fs

/-- Σ over sell fills of `quantity × fill_price − commission`. -/
def sellNetSum : List Fill → ℚ
  | [] => 0
  | f :: fs =>
    (if strLower f.side = "sell" then f.quantity * f.fill_price - f.commission else 0)
      + sellNetSum fs

/-- A fill that does not raise is a buy that subtracts exactly
`quantity × fill_price + commission` from cash, or a sell that adds exactly
`quantity × fill_price − commission`. -/
lemma update_on_fill_success_cash (pf : Portfolio) (s : String) (q p c : ℚ)
    (side : String) (h : (pf.update_on_fill s q p side c).error = none) :
    (strLower side = "buy" ∧
      (pf.update_on_fill s q p side c).portfolio.cash = pf.cash - (q * p + c)) ∨
    (strLower side ≠ "buy" ∧ strLower side = "sell" ∧
      (pf.update_on_fill s q p side c).portfolio.cash = pf.cash + (q * p - c)) := by
  simp only [Portfolio.update_on_fill] at h ⊢
  split_ifs at h ⊢ with h1 h2 h3 h4 h5 <;> simp_all

/-- C1. For every finite sequence of successful fill applications, ending
cash equals starting cash minus the sum of buy net values plus the sum of
sell net values, exactly. -/
theorem cash_conservation (fills : List Fill) :
    ∀ pf pf' : Portfolio, applyFills pf fills = some pf' →
    (∀ f ∈ fills, 0 < f.quantity ∧ 0 ≤ f.commission) →
    pf'.cash = pf.cash - buyNetSum fills + sellNetSum fills := by
  induction fills with
  | nil =>
    intro pf pf' h _
    simp only [applyFills, Option.some.injEq] at h
    subst h
    simp [buyNetSum, sellNetSum]
  | cons f fs ih =>
    intro pf pf' h hpos
    simp only [applyFills] at h
    cases herr : (applyFill pf f).error with
    | some e =>
      simp only [herr] at h
      exact Option.noConfusion h
    | none =>
      simp only [herr] at h
      have hrest := ih (applyFill pf f).portfolio pf' h
        (fun g hg => hpos g (List.mem_cons_of_mem f hg))
      have hc := update_on_fill_success_cash pf f.symbol f.quantity f.fill_price
        f.commission f.side herr
      rcases hc with ⟨hb, hcash⟩ | ⟨hnb, hs, hcash⟩
      · have hbs : strLower f.side ≠ "sell" := by rw [hb]; decide
        rw [hrest]
        show (applyFill pf f).portfolio.cash - buyNetSum fs + sellNetSum fs = _
        rw [show (applyFill pf f).portfolio.cash = pf.cash -
          (f.quantity * f.fill_price + f.commission) from hcash]
        simp only [buyNetSum, sellNetSum, if_pos hb, if_neg hbs]
        ring
      · rw [hrest]
        show (applyFill pf f).portfolio.cash - buyNetSum fs + sellNetSum fs = _
        rw [show (applyFill pf f).portfolio.cash = pf.cash +
          (f.quantity * f.fill_price - f.commission) from hcash]
        simp only [buyNetSum, sellNetSum, if_pos hs, if_neg hnb]
        ring

/-- Concrete starting ledger for the cash-conservation witness. -/
def c1Start : Portfolio := ⟨1000, 1000, []⟩

/-- Concrete fill sequence: a buy of 2 @ 10 with commission 1, then a sell
of 1 @ 20 with commission 1/2 (capitalised side). -/
def c1Fills : List Fill :=
  [⟨"AAPL", 2, 10, "buy", 1⟩, ⟨"AAPL", 1, 20, "Sell", 1/2⟩]

/-- The ledger the fill sequence of the witness ends in. -/
def c1End : Portfolio := ⟨1000, 1997/2, [("AAPL", ⟨"AAPL", 1, 10⟩)]⟩

/-- Witness for C1 at a concrete two-fill sequence. -/
theorem cash_conservation_witness :
    applyFills c1Start c1Fills = some c1End ∧
    (∀ f ∈ c1Fills, 0 < f.quantity ∧ 0 ≤ f.commission) ∧
    c1End.cash = c1Start.cash - buyNetSum c1Fills + sellNetSum c1Fills := by
  have hmem : ∀ f ∈ c1Fills, 0 < f.quantity ∧ 0 ≤ f.commission := by
    intro f hf
    simp only [c1Fills, List.mem_cons, List.not_mem_nil, or_false] at hf
    rcases hf with rfl | rfl <;> norm_num
  have happ : applyFills c1Start c1Fills = some c1End := by
    norm_num [applyFills, applyFill, c1Start, c1Fills, c1End,
      Portfolio.update_on_fill, (by decide : strLower "buy" = "buy"),
      (by decide : strLower "Sell" = "sell"),
      (by decide : ("sell" : String) ≠ "buy"),
      (by decide : ("buy" : String) ≠ "sell"), alookup, setPosition, tol]
  exact ⟨happ, hmem, cash_conservation c1Fills c1Start c1End happ hmem⟩

/-- C2 (code bug). An over-sell on a symbol with no position does raise the
over-sell error and leaves cash unchanged, but the symbol mapping is NOT
unchanged: the freshly inserted zero-quantity `Position` survives the raise. -/
theorem oversell_missing_symbol_mutates_ledger :
    (Portfolio.update_on_fill ⟨1000, 1000, []⟩ "AAPL" 1 10 "sell" 0).error
        = some .oversell ∧
    (Portfolio.update_on_fill ⟨1000, 1000, []⟩ "AAPL" 1 10 "sell" 0).portfolio.cash
        = 1000 ∧
    (Portfolio.update_on_fill ⟨1000, 1000, []⟩ "AAPL" 1 10 "sell" 0).portfolio.positions
        = [("AAPL", { symbol := "AAPL", quantity := 0, average_price := 0 })] := by
  norm_num [Portfolio.update_on_fill, (by decide : strLower "sell" = "sell"),
    alookup, tol]
  decide

/-- C3 (code bug). After a failed over-sell on a fresh ledger, the mapping
holds an entry whose quantity 0 is at or below the 1e-9 closure tolerance. -/
theorem failed_oversell_leaves_closed_position :
    (Portfolio.update_on_fill ⟨500, 500, []⟩ "MSFT" 2 7 "sell" 0).error
        = some .oversell ∧
    ∃ p : Position,
      alookup (Portfolio.update_on_fill ⟨500, 500, []⟩ "MSFT" 2 7 "sell" 0).portfolio.positions
          "MSFT" = some p ∧ p.quantity ≤ tol := by
  refine ⟨?_, ⟨{ symbol := "MSFT", quantity := 0, average_price := 0 }, ?_, ?_⟩⟩ <;>
    norm_num [Portfolio.update_on_fill, (by decide : strLower "sell" = "sell"),
      alookup, tol] <;> decide

/-- C10. Side matching is case-insensitive: a side lowering to `"buy"` (resp.
`"sell"`) behaves exactly as the literal side, and the invalid-side error is
raised iff the lowercased side is neither `"buy"` nor `"sell"`. -/
theorem side_matching_case_insensitive (pf : Portfolio) (s : String)
    (q p c : ℚ) (side : String) :
    (strLower side = "buy" →
      pf.update_on_fill s q p side c = pf.update_on_fill s q p "buy" c) ∧
    (strLower side = "sell" →
      pf.update_on_fill s q p side c = pf.update_on_fill s q p "sell" c) ∧
    ((pf.update_on_fill s q p side c).error = some .invalidSide ↔
      strLower side ≠ "buy" ∧ strLower side ≠ "sell") := by
  refine ⟨?_, ?_, ?_⟩
  · intro h
    simp only [Portfolio.update_on_fill, h, (by decide : strLower "buy" = "buy")]
  · intro h
    simp only [Portfolio.update_on_fill, h, (by decide : strLower "sell" = "sell")]
  · by_cases hv : strLower side ≠ "buy" ∧ strLower side ≠ "sell"
    · simp only [Portfolio.update_on_fill, if_pos hv]
      simp [hv]
    · simp only [Portfolio.update_on_fill, if_neg hv]
      refine iff_of_false ?_ hv
      split_ifs <;> simp

/-- Witness for C10: `"BUY"` and `"Sell"` are accepted as their lowercase
sides, `"hodl"` raises the invalid-side error. -/
theorem side_matching_case_insensitive_witness :
    (Portfolio.update_on_fill ⟨1000, 1000, []⟩ "A" 1 10 "BUY" 0
      = Portfolio.update_on_fill ⟨1000, 1000, []⟩ "A" 1 10 "buy" 0) ∧
    (Portfolio.update_on_fill ⟨1000, 1000, []⟩ "A" 1 10 "Sell" 0
      = Portfolio.update_on_fill ⟨1000, 1000, []⟩ "A" 1 10 "sell" 0) ∧
    (Portfolio.update_on_fill ⟨1000, 1000, []⟩ "A" 1 10 "hodl" 0).error
      = some .invalidSide :=
  ⟨(side_matching_case_insensitive ⟨1000, 1000, []⟩ "A" 1 10 0 "BUY").1 (by decide),
   (side_matching_case_insensitive ⟨1000, 1000, []⟩ "A" 1 10 0 "Sell").2.1 (by decide),
   ((side_matching_case_insensitive ⟨1000, 1000, []⟩ "A" 1 10 0 "hodl").2.2).mpr
     (by decide)⟩

/-- `autotrader/strategies/base.py` — `Signal`. Timestamps are opaque ticks. -/
structure Signal where
  symbol : String
  action : String
  timestamp : ℕ
  confidence : ℚ := 1
deriving Repr, DecidableEq

/-- `autotrader/execution/base.py` — `Order`. -/
structure Order where
  symbol : String
  quantity : ℚ
  side : String
  type : String := "market"
  time_in_force : String := "day"
deriving Repr, DecidableEq

/-- `autotrader/execution/base.py` — `Trade`. -/
structure Trade where
  order : Order
  price : ℚ
  timestamp : ℕ
  commission : ℚ := 0
deriving Repr, DecidableEq

/-- `Trade.gross_value = price × quantity`. -/
def Trade.gross_value (t : Trade) : ℚ := t.price * t.order.quantity

/-- `Trade.net_value = gross ± commission` depending on side. -/
def Trade.net_value (t : Trade) : ℚ :=
  if t.order.side = "buy" then t.gross_value + t.commission
  else t.gross_value - t.commission

/-- The `BotConfig` fields the engine's sizing and backtest read. -/
structure BotConfig where
  symbol : String
  cash : ℚ
  risk_per_trade : ℚ
  max_position_pct : ℚ
deriving Repr, DecidableEq

/-- `AutoTradingBot._create_order` (engine.py lines 158–187). -/
def createOrder (cfg : BotConfig) (pf : Portfolio) (signal : Signal)
    (market_price : ℚ) : Option Order :=
  let action := strLower signal.action
  let symbol := signal.symbol
  if action ≠ "buy" ∧ action ≠ "sell" then none
  else if action = "buy" then
    let current_qty := pf.position_size symbol
    let equity := pf.total_equity [(symbol, market_price)]
    let max_position_value := equity * cfg.max_position_pct
    let current_value := current_qty * market_price
    let remaining_value := max 0 (max_position_value - current_value)
    let budget := min (pf.cash * cfg.risk_per_trade) remaining_value
    if budget ≤ 0 then none
    else
      let quantity : ℤ := ⌊budget / market_price⌋
      if quantity ≤ 0 then none
      else some { symbol := symbol, quantity := (quantity : ℚ), side := "buy" }
  else
    let current_qty := pf.position_size symbol
    if current_qty ≤ 0 then none
    else some { symbol := symbol, quantity := current_qty, side := "sell" }

/-- C4. Buy sizing is exactly
`floor(min(cash × risk_per_trade, max(0, equity × max_position_pct − current_value)) / p)`
with no order when that is ≤ 0; a generated buy never pushes position value
over `max_position_pct × equity` nor requests more than
`risk_per_trade × cash`; a sell liquidates the entire position and aborts
when flat. -/
theorem create_order_sizing (cfg : BotConfig) (pf : Portfolio) (sig : Signal)
    (p : ℚ) (hp : 0 < p) :
    (strLower sig.action = "buy" →
      (createOrder cfg pf sig p =
        (if (⌊min (pf.cash * cfg.risk_per_trade)
              (max 0 (pf.total_equity [(sig.symbol, p)] * cfg.max_position_pct
                - pf.position_size sig.symbol * p)) / p⌋ : ℤ) ≤ 0 then none
         else some
          { symbol := sig.symbol,
            quantity := ((⌊min (pf.cash * cfg.risk_per_trade)
              (max 0 (pf.total_equity [(sig.symbol, p)] * cfg.max_position_pct
                - pf.position_size sig.symbol * p)) / p⌋ : ℤ) : ℚ),
            side := "buy" })) ∧
      (∀ o : Order, createOrder cfg pf sig p = some o →
        o.quantity * p ≤ cfg.risk_per_trade * pf.cash ∧
        pf.position_size sig.symbol * p + o.quantity * p
          ≤ cfg.max_position_pct * pf.total_equity [(sig.symbol, p)])) ∧
    (strLower sig.action = "sell" →
      (createOrder cfg pf sig p = none ↔ pf.position_size sig.symbol ≤ 0) ∧
      (∀ o : Order, createOrder cfg pf sig p = some o →
        o.quantity = pf.position_size sig.symbol ∧ o.side = "sell")) := by
  constructor
  · intro hbuy
    have hnb : ¬(strLower sig.action ≠ "buy" ∧ strLower sig.action ≠ "sell") := by
      simp [hbuy]
    set cur := pf.position_size sig.symbol with hcur
    set eq' := pf.total_equity [(sig.symbol, p)] with heq
    set budget := min (pf.cash * cfg.risk_per_trade)
      (max 0 (eq' * cfg.max_position_pct - cur * p)) with hbudget
    have hunfold : createOrder cfg pf sig p =
        (if budget ≤ 0 then none
         else if (⌊budget / p⌋ : ℤ) ≤ 0 then none
         else some { symbol := sig.symbol, quantity := ((⌊budget / p⌋ : ℤ) : ℚ),
                     side := "buy" }) := by
      simp only [createOrder, if_neg hnb, if_pos hbuy]
    constructor
    · rw [hunfold]
      by_cases hb : budget ≤ 0
      · have hdiv : budget / p ≤ 0 := div_nonpos_iff.mpr (Or.inr ⟨hb, hp.le⟩)
        have hq : (⌊budget / p⌋ : ℤ) ≤ 0 := by
          calc (⌊budget / p⌋ : ℤ) ≤ ⌊(0 : ℚ)⌋ := Int.floor_le_floor hdiv
          _ = 0 := Int.floor_zero
        simp [hb, hq]
      · simp [hb]
    · intro o ho
      rw [hunfold] at ho
      by_cases hb : budget ≤ 0
      · simp [hb] at ho
      by_cases hq : (⌊budget / p⌋ : ℤ) ≤ 0
      · simp [hb, hq] at ho
      simp only [if_neg hb, if_neg hq, Option.some.injEq] at ho
      subst ho
      have hqle : ((⌊budget / p⌋ : ℤ) : ℚ) ≤ budget / p := Int.floor_le _
      have hmul : ((⌊budget / p⌋ : ℤ) : ℚ) * p ≤ budget := by
        have := mul_le_mul_of_nonneg_right hqle hp.le
        rwa [div_mul_cancel₀ budget (ne_of_gt hp)] at this
      have hqpos : (0 : ℚ) < ((⌊budget / p⌋ : ℤ) : ℚ) := by
        exact_mod_cast lt_of_not_le hq
      have hbpos : 0 < budget := lt_of_lt_of_le (mul_pos hqpos hp) hmul
      constructor
      · calc ((⌊budget / p⌋ : ℤ) : ℚ) * p ≤ budget := hmul
        _ ≤ pf.cash * cfg.risk_per_trade := min_le_left _ _
        _ = cfg.risk_per_trade * pf.cash := mul_comm _ _
      · have hrem : 0 < max 0 (eq' * cfg.max_position_pct - cur * p) :=
          lt_of_lt_of_le hbpos (min_le_right _ _)
        have hrem' : (0 : ℚ) < eq' * cfg.max_position_pct - cur * p := by
          rcases lt_max_iff.mp hrem with h | h
          · exact absurd h (lt_irrefl 0)
          · exact h
        have : budget ≤ eq' * cfg.max_position_pct - cur * p := by
          calc budget ≤ max 0 (eq' * cfg.max_position_pct - cur * p) := min_le_right _ _
          _ = eq' * cfg.max_position_pct - cur * p := max_eq_right hrem'.le
        have := le_trans hmul this
        calc cur * p + ((⌊budget / p⌋ : ℤ) : ℚ) * p
            ≤ cur * p + (eq' * cfg.max_position_pct - cur * p) := by linarith
        _ = cfg.max_position_pct * eq' := by ring
  · intro hsell
    have hnb : ¬(strLower sig.action ≠ "buy" ∧ strLower sig.action ≠ "sell") := by
      simp [hsell]
    have hnbuy : ¬(strLower sig.action = "buy") := by
      rw [hsell]; decide
    have hunfold : createOrder cfg pf sig p =
        (if pf.position_size sig.symbol ≤ 0 then none
         else some { symbol := sig.symbol, quantity := pf.position_size sig.symbol,
                     side := "sell" }) := by
      simp only [createOrder, if_neg hnb, if_neg hnbuy]
    constructor
    · rw [hunfold]
      by_cases hc : pf.position_size sig.symbol ≤ 0 <;> simp [hc]
    · intro o ho
      rw [hunfold] at ho
      by_cases hc : pf.position_size sig.symbol ≤ 0
      · simp [hc] at ho
      · simp only [if_neg hc, Option.some.injEq] at ho
        subst ho
        exact ⟨rfl, rfl⟩

/-- Concrete config for the sizing witness. -/
def c4cfg : BotConfig := ⟨"A", 1000, 1/10, 1/2⟩

/-- Concrete ledger for the sizing witness. -/
def c4pf : Portfolio := ⟨1000, 1000, []⟩

/-- Concrete buy signal for the sizing witness. -/
def c4sig : Signal := ⟨"A", "buy", 0, 1⟩

/-- The order the sizing witness expects: `floor(min(100, 500) / 10) = 10`. -/
def c4order : Order := { symbol := "A", quantity := 10, side := "buy" }

/-- Witness for C4 at a concrete portfolio, config and price. -/
theorem create_order_sizing_witness :
    (0 : ℚ) < 10 ∧
    createOrder c4cfg c4pf c4sig 10 = some c4order ∧
    c4order.quantity * 10 ≤ c4cfg.risk_per_trade * c4pf.cash ∧
    c4pf.position_size c4sig.symbol * 10 + c4order.quantity * 10
      ≤ c4cfg.max_position_pct * c4pf.total_equity [(c4sig.symbol, 10)] := by
  have hp : (0 : ℚ) < 10 := by norm_num
  have h := create_order_sizing c4cfg c4pf c4sig 10 hp
  have hbuy : strLower c4sig.action = "buy" := by decide
  have heval : createOrder c4cfg c4pf c4sig 10 = some c4order := by
    rw [(h.1 hbuy).1]
    norm_num [c4cfg, c4pf, c4sig, c4order, Portfolio.position_size,
      Portfolio.get_position, alookup, Portfolio.total_equity,
      Portfolio.market_value_map]
  have hb := (h.1 hbuy).2 c4order heval
  exact ⟨hp, heval, hb.1, hb.2⟩

/-- One iteration of `_calculate_max_drawdown`'s loop: track the running
peak, then take the worst drawdown so far. -/
def mddStep (acc : ℚ × ℚ) (pt : ℕ × ℚ) : ℚ × ℚ :=
  let peak := if pt.2 > acc.1 then pt.2 else acc.1
  let drawdown := pt.2 / peak - 1
  (peak, if drawdown < acc.2 then drawdown else acc.2)

/-- `AutoTradingBot._calculate_max_drawdown` (engine.py lines 196–209):
peak starts at the first equity, running minimum of `equity/peak − 1`
starting at `0.0`, `0.0` for an empty curve. -/
def calculateMaxDrawdown (curve : List (ℕ × ℚ)) : ℚ :=
  match curve with
  | [] => 0
  | (_, e0) :: _ => (curve.foldl mddStep (e0, 0)).2

/-- Running peak at each point of the equity sequence. -/
def prefixPeaks : ℚ → List ℚ → List ℚ
  | _, [] => []
  | acc, e :: es => (max acc e) :: prefixPeaks (max acc e) es

/-- Minimum of a list, seeded with a first value. -/
def minOfList : ℚ → List ℚ → ℚ
  | d, [] => d
  | d, x :: xs => minOfList (min d x) xs

/-- Per the spec: the drawdown at each point, `equity / running-peak − 1`. -/
def specDrawdowns (curve : List (ℕ × ℚ)) : List ℚ :=
  match curve with
  | [] => []
  | (_, e0) :: _ =>
    List.zipWith (fun e pk => e / pk - 1) (curve.map Prod.snd)
      (prefixPeaks e0 (curve.map Prod.snd))

/-- Per the spec: the minimum over time of the per-point drawdowns, `0` for
an empty curve (and hence `0` when the curve never declines). -/
def specMaxDrawdown (curve : List (ℕ × ℚ)) : ℚ :=
  match specDrawdowns curve with
  | [] => 0
  | d :: ds => minOfList d ds

lemma mddStep_eq (a m : ℚ) (pt : ℕ × ℚ) :
    mddStep (a, m) pt = (max a pt.2, min m (pt.2 / max a pt.2 - 1)) := by
  unfold mddStep
  have h1 : (if pt.2 > a then pt.2 else a) = max a pt.2 := by
    rcases le_or_lt pt.2 a with h | h
    · simp [not_lt.mpr h, max_eq_left h]
    · simp [h, max_eq_right h.le]
  simp only [h1]
  have h2 : (if pt.2 / max a pt.2 - 1 < m then pt.2 / max a pt.2 - 1 else m)
      = min m (pt.2 / max a pt.2 - 1) := by
    rcases lt_or_le (pt.2 / max a pt.2 - 1) m with h | h
    · simp [h, min_eq_right h.le]
    · simp [not_lt.mpr h, min_eq_left h]
  simp only [h2]

lemma foldl_mddStep_eq (rest : List (ℕ × ℚ)) :
    ∀ peak m : ℚ,
    (rest.foldl mddStep (peak, m)).2 =
      minOfList m (List.zipWith (fun e pk => e / pk - 1) (rest.map Prod.snd)
        (prefixPeaks peak (rest.map Prod.snd))) := by
  induction rest with
  | nil => intro peak m; simp [minOfList]
  | cons pt rest ih =>
    intro peak m
    simp only [List.foldl_cons, List.map_cons, prefixPeaks, List.zipWith_cons_cons,
      mddStep_eq, minOfList]
    exact ih (max peak pt.2) (min m (pt.2 / max peak pt.2 - 1))

/-- C5. The engine's max-drawdown computation returns the minimum over time
of `equity / running-peak − 1` (running peak tracked monotonically), `0` for
an empty or never-declining curve. -/
theorem max_drawdown_spec (curve : List (ℕ × ℚ))
    (hpos : ∀ pt ∈ curve, 0 < pt.2) :
    calculateMaxDrawdown curve = specMaxDrawdown curve := by
  cases curve with
  | nil => rfl
  | cons hd rest =>
    obtain ⟨t, e0⟩ := hd
    have he0 : (0 : ℚ) < e0 := hpos (t, e0) (by simp)
    have hdd : e0 / e0 - 1 = 0 := by
      rw [div_self (ne_of_gt he0)]; ring
    unfold calculateMaxDrawdown specMaxDrawdown specDrawdowns
    simp only [List.foldl_cons, List.map_cons, prefixPeaks, List.zipWith_cons_cons,
      mddStep_eq, max_self, hdd, min_self, foldl_mddStep_eq, minOfList]

/-- Witness for C5 at the spec's example curve `[100, 120, 90, 150, 80]`. -/
theorem max_drawdown_spec_witness :
    calculateMaxDrawdown [(0, 100), (1, 120), (2, 90), (3, 150), (4, 80)]
      = specMaxDrawdown [(0, 100), (1, 120), (2, 90), (3, 150), (4, 80)] ∧
    calculateMaxDrawdown [(0, 100), (1, 120), (2, 90), (3, 150), (4, 80)]
      = 80 / 150 - 1 := by
  constructor
  · refine max_drawdown_spec _ ?_
    intro pt h
    simp only [List.mem_cons, List.not_mem_nil, or_false] at h
    rcases h with rfl | rfl | rfl | rfl | rfl <;> norm_num
  · norm_num [calculateMaxDrawdown, mddStep, List.foldl]

/-- The exceptions `PaperBroker.submit_order` can raise: its own
invalid-market-price check, or a ledger error propagated from the fill. -/
inductive SubmitError where
  | invalidMarketPrice
  | fill (e : FillError)
deriving Repr, DecidableEq

/-- `autotrader/execution/paper.py` — `PaperBroker`. -/
structure PaperBroker where
  portfolio : Portfolio
  slippage_bps : ℚ := 5
  commission : ℚ := 0
  trade_history : List Trade := []
deriving Repr, DecidableEq

/-- Result of `submit_order`: optional exception, broker state after the
call (ledger mutations before a raise survive it), and the returned trade. -/
structure SubmitResult where
  error : Option SubmitError
  broker : PaperBroker
  trade : Option Trade
deriving Repr, DecidableEq

/-- `PaperBroker.submit_order` (paper.py lines 26–52). -/
def PaperBroker.submit_order (b : PaperBroker) (order : Order)
    (market_price : ℚ) (timestamp : ℕ) : SubmitResult :=
  if market_price ≤ 0 then ⟨some .invalidMarketPrice, b, none⟩
  else
    let slippage_mult := 1 + b.slippage_bps / 10000
    let fill_price :=
      if order.side = "buy" then market_price * slippage_mult
      else market_price / slippage_mult
    let r := b.portfolio.update_on_fill order.symbol order.quantity fill_price
      order.side b.commission
    match r.error with
    | some e => ⟨some (.fill e), { b with portfolio := r.portfolio }, none⟩
    | none =>
      let trade : Trade :=
        { order := order, price := fill_price, timestamp := timestamp,
          commission := b.commission }
      ⟨none,
        { b with
          portfolio := r.portfolio
          trade_history := b.trade_history ++ [trade] },
        some trade⟩

/-- C7. With positive slippage, a buy fills at exactly
`p × (1 + slippage_bps/10000)` (strictly above `p`), a sell at exactly
`p / (1 + slippage_bps/10000)` (strictly below `p`), and a non-positive
market price raises the invalid-argument error. -/
theorem paper_slippage (b : PaperBroker) (o : Order) (p : ℚ) (ts : ℕ)
    (hs : 0 < b.slippage_bps) :
    (0 < p → ∀ t : Trade, (b.submit_order o p ts).trade = some t →
      (o.side = "buy" →
        t.price = p * (1 + b.slippage_bps / 10000) ∧ p < t.price) ∧
      (o.side = "sell" →
        t.price = p / (1 + b.slippage_bps / 10000) ∧ t.price < p)) ∧
    (p ≤ 0 → (b.submit_order o p ts).error = some .invalidMarketPrice) := by
  constructor
  · intro hp t ht
    have hnp : ¬ p ≤ 0 := not_le.mpr hp
    have hm1 : (1 : ℚ) < 1 + b.slippage_bps / 10000 := by
      have h0 : (0 : ℚ) < b.slippage_bps / 10000 := by positivity
      linarith
    simp only [PaperBroker.submit_order, if_neg hnp] at ht
    set fp := if o.side = "buy" then p * (1 + b.slippage_bps / 10000)
      else p / (1 + b.slippage_bps / 10000) with hfp
    cases herr : (b.portfolio.update_on_fill o.symbol o.quantity fp o.side
        b.commission).error with
    | some e =>
      rw [herr] at ht
      exact Option.noConfusion ht
    | none =>
      rw [herr] at ht
      simp only [Option.some.injEq] at ht
      subst ht
      constructor
      · intro hbuy
        have : fp = p * (1 + b.slippage_bps / 10000) := by rw [hfp, if_pos hbuy]
        refine ⟨this, ?_⟩
        rw [this]
        exact (lt_mul_iff_one_lt_right hp).mpr hm1
      · intro hsell
        have hnb : ¬ o.side = "buy" := by rw [hsell]; decide
        have : fp = p / (1 + b.slippage_bps / 10000) := by rw [hfp, if_neg hnb]
        refine ⟨this, ?_⟩
        rw [this]
        exact div_lt_self hp hm1
  · intro hle
    simp [PaperBroker.submit_order, if_pos hle]

/-- Concrete broker for the slippage witness. -/
def c7broker : PaperBroker := ⟨⟨1000, 1000, []⟩, 5, 0, []⟩

/-- Concrete buy order for the slippage witness. -/
def c7order : Order := { symbol := "A", quantity := 1, side := "buy" }

/-- The trade the slippage witness expects: fill at `100 × 1.0005`. -/
def c7trade : Trade := { order := c7order, price := 2001/20, timestamp := 0, commission := 0 }

/-- Witness for C7: a buy at market price 100 with 5 bps slippage fills at
100.05 > 100. -/
theorem paper_slippage_witness :
    (0 : ℚ) < c7broker.slippage_bps ∧ (0 : ℚ) < 100 ∧
    (c7broker.submit_order c7order 100 0).trade = some c7trade ∧
    c7trade.price = 100 * (1 + c7broker.slippage_bps / 10000) ∧
    (100 : ℚ) < c7trade.price := by
  have hs : (0 : ℚ) < c7broker.slippage_bps := by norm_num [c7broker]
  have h := paper_slippage c7broker c7order 100 0 hs
  have htr : (c7broker.submit_order c7order 100 0).trade = some c7trade := by
    norm_num [PaperBroker.submit_order, c7broker, c7order, c7trade,
      Portfolio.update_on_fill, (by decide : strLower "buy" = "buy"),
      alookup, setPosition, tol]
  have hb := (h.1 (by norm_num) c7trade htr).1 rfl
  exact ⟨hs, by norm_num, htr, hb.1, hb.2⟩

/-- The oracle decision fields `_risk_filter` reads (`risk_level` defaults
to `"MEDIUM"` via `dict.get`). -/
structure OracleDecision where
  action : String
  confidence : ℚ
  risk_level : String := "MEDIUM"
deriving Repr, DecidableEq

/-- The market-analysis fields `_risk_filter` reads: `portfolio_context`'s
`position_pct` and `position_size`, `market_conditions.volatility_level`
(defaulting to `"MEDIUM"`), and `technical_indicators.get("rsi")`. -/
structure MarketAnalysis where
  position_pct : ℚ
  position_size : ℚ
  volatility_level : String := "MEDIUM"
  rsi : Option ℚ := none
deriving Repr, DecidableEq

/-- `LLMAgentStrategy._risk_filter` (llm_agent.py lines 135–201), `true` when
the decision passes. The Python guard `if rsi:` is falsy both when the
indicator is absent and when its value is exactly `0.0`, so the RSI block is
skipped in both cases. -/
def riskFilter (d : OracleDecision) (a : MarketAnalysis) : Bool :=
  if d.action = "BUY" ∧ a.position_pct > 80 then false
  else if d.action = "BUY" ∧ a.volatility_level = "HIGH" ∧ d.confidence < 8/10 then
    false
  else if d.action = "SELL" ∧ a.position_size ≤ 0 then false
  else if d.risk_level = "HIGH" ∧ d.confidence < 8/10 then false
  else
    match a.rsi with
    | none => true
    | some r =>
      if r = 0 then true
      else if d.action = "BUY" ∧ r > 70 then false
      else if d.action = "SELL" ∧ r < 30 then false
      else true

/-- C8 (code bug). The spec's example BUY {confidence 0.9, risk HIGH, RSI 75}
is indeed vetoed, but a SELL with RSI = 0 — deeply oversold, so the claim
requires a veto — passes the filter: Python's `if rsi:` treats the RSI value
`0.0` as missing. -/
theorem risk_filter_rsi_facts :
    riskFilter ⟨"BUY", 9/10, "HIGH"⟩ ⟨10, 0, "MEDIUM", some 75⟩ = false ∧
    riskFilter ⟨"SELL", 9/10, "LOW"⟩ ⟨50, 1, "MEDIUM", some 0⟩ = true := by
  constructor <;>
    norm_num [riskFilter, (by decide : ("BUY" : String) ≠ "SELL"),
      (by decide : ("SELL" : String) ≠ "BUY"),
      (by decide : ("MEDIUM" : String) ≠ "HIGH"),
      (by decide : ("LOW" : String) ≠ "HIGH"),
      (by decide : ("HIGH" : String) = "HIGH")]

/-- The general BUY half of C8, which does hold: whenever the RSI indicator
is present and above 70, a BUY decision is vetoed, whatever its confidence
and risk level. -/
theorem risk_filter_buy_overbought_veto (d : OracleDecision) (a : MarketAnalysis)
    (r : ℚ) (hr : a.rsi = some r) (h70 : 70 < r) (hb : d.action = "BUY") :
    riskFilter d a = false := by
  have hr0 : ¬ r = 0 := by
    intro h
    rw [h] at h70
    norm_num at h70
  unfold riskFilter
  rw [hr, hb]
  split_ifs with h1 h2 h3 h4 h5 h6 h7 <;> simp_all

/-- `autotrader/strategies/moving_average.py` — the crossover strategy's
parameters (the constructor rejects `short_window ≥ long_window`). -/
structure MAStrategy where
  symbol : String
  short_window : ℕ := 20
  long_window : ℕ := 50
  minimum_confidence : ℚ := 1/200
deriving Repr, DecidableEq

/-- `minimum_history = long_window + 1`. -/
def MAStrategy.minimum_history (st : MAStrategy) : ℕ := st.long_window + 1

/-- The value of `prices.rolling(w).mean()` at the last row, when defined. -/
def lastMean (w : ℕ) (l : List ℚ) : ℚ :=
  ((l.drop (l.length - w)).sum) / w

/-- `prices.rolling(w).mean()` at the last row: `NaN` (here `none`) when
fewer than `w` observations exist, else the trailing mean. -/
def rollingMeanLast (w : ℕ) (l : List ℚ) : Option ℚ :=
  if l.length < w then none else some (lastMean w l)

/-- `MovingAverageCrossStrategy.generate_signal` (moving_average.py lines
41–72) over (time, close) candles. The `pd.isna(...).any()` check is the
match on the four optional means. -/
def MAStrategy.generate_signal (st : MAStrategy) (data : List (ℕ × ℚ))
    (pf : Portfolio) : Option Signal :=
  if data.length < st.minimum_history then none
  else
    let prices := data.map Prod.snd
    match rollingMeanLast st.short_window prices,
        rollingMeanLast st.long_window prices,
        rollingMeanLast st.short_window prices.dropLast,
        rollingMeanLast st.long_window prices.dropLast with
    | some latest_short, some latest_long, some prev_short, some prev_long =>
      let signal_time := ((data.getLast?).getD (0, 0)).1
      let difference := latest_short - latest_long
      let confidence := if 0 < latest_long then |difference| / latest_long else 0
      let current_position := pf.position_size st.symbol
      let has_position := 0 < current_position
      if (latest_long < latest_short ∧ prev_short ≤ prev_long) ∧ ¬has_position
          ∧ st.minimum_confidence ≤ confidence then
        some { symbol := st.symbol, action := "buy", timestamp := signal_time,
               confidence := confidence }
      else if (latest_short < latest_long ∧ prev_long ≤ prev_short) ∧ has_position
          ∧ st.minimum_confidence ≤ confidence then
        some { symbol := st.symbol, action := "sell", timestamp := signal_time,
               confidence := confidence }
      else none
    | _, _, _, _ => none

/-- `crossed_up`: short over long now, short at or under long at the
previous bar. -/
def crossedUp (st : MAStrategy) (prices : List ℚ) : Prop :=
  lastMean st.long_window prices < lastMean st.short_window prices ∧
    lastMean st.short_window prices.dropLast ≤ lastMean st.long_window prices.dropLast

/-- `crossed_down`: short under long now, short at or over long at the
previous bar. -/
def crossedDown (st : MAStrategy) (prices : List ℚ) : Prop :=
  lastMean st.short_window prices < lastMean st.long_window prices ∧
    lastMean st.long_window prices.dropLast ≤ lastMean st.short_window prices.dropLast

/-- `confidence = |short(now) − long(now)| / long(now)`, `0` if
`long(now) ≤ 0`. -/
def maConfidence (st : MAStrategy) (prices : List ℚ) : ℚ :=
  if 0 < lastMean st.long_window prices then
    |lastMean st.short_window prices - lastMean st.long_window prices|
      / lastMean st.long_window prices
  else 0

/-- C6. With at least `long_window + 1` bars (all four moving averages
defined), the strategy emits buy iff crossed-up ∧ flat ∧ confident, sell iff
crossed-down ∧ holding ∧ confident, and nothing otherwise. -/
theorem ma_crossover_signal (st : MAStrategy) (data : List (ℕ × ℚ))
    (pf : Portfolio) (hw : 0 < st.short_window)
    (hsl : st.short_window < st.long_window)
    (hlen : st.long_window + 1 ≤ data.length) :
    ((∃ sg, st.generate_signal data pf = some sg ∧ sg.action = "buy") ↔
      (crossedUp st (data.map Prod.snd) ∧ ¬(0 < pf.position_size st.symbol) ∧
        st.minimum_confidence ≤ maConfidence st (data.map Prod.snd))) ∧
    ((∃ sg, st.generate_signal data pf = some sg ∧ sg.action = "sell") ↔
      (crossedDown st (data.map Prod.snd) ∧ 0 < pf.position_size st.symbol ∧
        st.minimum_confidence ≤ maConfidence st (data.map Prod.snd))) ∧
    (st.generate_signal data pf = none ↔
      (¬(crossedUp st (data.map Prod.snd) ∧ ¬(0 < pf.position_size st.symbol) ∧
          st.minimum_confidence ≤ maConfidence st (data.map Prod.snd)) ∧
       ¬(crossedDown st (data.map Prod.snd) ∧ 0 < pf.position_size st.symbol ∧
          st.minimum_confidence ≤ maConfidence st (data.map Prod.snd)))) := by
  have hprices : (data.map Prod.snd).length = data.length := List.length_map _ _
  have hdrop : ((data.map Prod.snd).dropLast).length = data.length - 1 := by
    rw [List.length_dropLast, hprices]
  have hnot : ¬(data.length < st.minimum_history) := by
    unfold MAStrategy.minimum_history; omega
  have hm1 : rollingMeanLast st.short_window (data.map Prod.snd)
      = some (lastMean st.short_window (data.map Prod.snd)) := by
    unfold rollingMeanLast; rw [if_neg]; omega
  have hm2 : rollingMeanLast st.long_window (data.map Prod.snd)
      = some (lastMean st.long_window (data.map Prod.snd)) := by
    unfold rollingMeanLast; rw [if_neg]; omega
  have hm3 : rollingMeanLast st.short_window ((data.map Prod.snd).dropLast)
      = some (lastMean st.short_window ((data.map Prod.snd).dropLast)) := by
    unfold rollingMeanLast; rw [if_neg]; omega
  have hm4 : rollingMeanLast st.long_window ((data.map Prod.snd).dropLast)
      = some (lastMean st.long_window ((data.map Prod.snd).dropLast)) := by
    unfold rollingMeanLast; rw [if_neg]; omega
  simp only [MAStrategy.generate_signal, if_neg hnot]
  simp only [hm1, hm2, hm3, hm4]
  set sNow := lastMean st.short_window (data.map Prod.snd) with hsNow
  set lNow := lastMean st.long_window (data.map Prod.snd) with hlNow
  set sPrev := lastMean st.short_window ((data.map Prod.snd).dropLast) with hsPrev
  set lPrev := lastMean st.long_window ((data.map Prod.snd).dropLast) with hlPrev
  have hconf : (if 0 < lNow then |sNow - lNow| / lNow else 0)
      = maConfidence st (data.map Prod.snd) := by
    unfold maConfidence
    rw [← hsNow, ← hlNow]
  by_cases hcb : (lNow < sNow ∧ sPrev ≤ lPrev) ∧ ¬(0 < pf.position_size st.symbol)
      ∧ st.minimum_confidence ≤ (if 0 < lNow then |sNow - lNow| / lNow else 0)
  · have hns : ¬(sNow < lNow) := lt_asymm hcb.1.1
    rw [if_pos hcb]
    refine ⟨iff_of_true ⟨_, rfl, rfl⟩ ?_, iff_of_false ?_ ?_, iff_of_false (by simp) ?_⟩
    · rw [← hconf]
      exact ⟨hcb.1, hcb.2.1, hcb.2.2⟩
    · rintro ⟨sg, hsg, hact⟩
      rw [← Option.some.inj hsg] at hact
      exact absurd (show ("buy" : String) = "sell" from hact) (by decide)
    · rintro ⟨h, _⟩
      exact hns h.1
    · rw [← hconf]
      intro h
      exact h.1 ⟨hcb.1, hcb.2.1, hcb.2.2⟩
  · by_cases hcs : (sNow < lNow ∧ lPrev ≤ sPrev) ∧ (0 < pf.position_size st.symbol)
        ∧ st.minimum_confidence ≤ (if 0 < lNow then |sNow - lNow| / lNow else 0)
    · have hnb : ¬(lNow < sNow) := lt_asymm hcs.1.1
      rw [if_neg hcb, if_pos hcs]
      refine ⟨iff_of_false ?_ ?_, iff_of_true ⟨_, rfl, rfl⟩ ?_,
        iff_of_false (by simp) ?_⟩
      · rintro ⟨sg, hsg, hact⟩
        rw [← Option.some.inj hsg] at hact
        exact absurd (show ("sell" : String) = "buy" from hact) (by decide)
      · rintro ⟨h, _⟩
        exact hnb h.1
      · rw [← hconf]
        exact ⟨hcs.1, hcs.2.1, hcs.2.2⟩
      · rw [← hconf]
        intro h
        exact h.2 ⟨hcs.1, hcs.2.1, hcs.2.2⟩
    · rw [if_neg hcb, if_neg hcs]
      rw [hconf] at hcb hcs
      refine ⟨iff_of_false (by simp) ?_, iff_of_false (by simp) ?_,
        iff_of_true rfl ⟨?_, ?_⟩⟩
      · intro h
        exact hcb ⟨h.1, h.2.1, h.2.2⟩
      · intro h
        exact hcs ⟨h.1, h.2.1, h.2.2⟩
      · intro h
        exact hcb ⟨h.1, h.2.1, h.2.2⟩
      · intro h
        exact hcs ⟨h.1, h.2.1, h.2.2⟩

/-- Witness for C6: short window 1 over long window 2 crossing up on closes
`[1, 1, 2]` with a flat portfolio emits a buy signal. -/
theorem ma_crossover_signal_witness :
    (0 < 1 ∧ 1 < 2 ∧ 2 + 1 ≤ 3) ∧
    ∃ sg, MAStrategy.generate_signal ⟨"A", 1, 2, 0⟩ [(0, 1), (1, 1), (2, 2)]
      ⟨0, 0, []⟩ = some sg ∧ sg.action = "buy" := by
  refine ⟨⟨by norm_num, by norm_num, by norm_num⟩, ?_⟩
  refine ((ma_crossover_signal ⟨"A", 1, 2, 0⟩ [(0, 1), (1, 1), (2, 2)] ⟨0, 0, []⟩
    (by norm_num) (by norm_num) (by norm_num)).1).mpr ?_
  refine ⟨?_, ?_, ?_⟩ <;>
    norm_num [crossedUp, maConfidence, lastMean, Portfolio.position_size,
      Portfolio.get_position, alookup] <;>
    positivity

/-- `PaperBroker.reset` (paper.py lines 54–56): clear the trade history and
reset the ledger. -/
def PaperBroker.reset (b : PaperBroker) (starting_cash : Option ℚ) : PaperBroker :=
  { b with trade_history := [], portfolio := b.portfolio.reset starting_cash }

/-- The strategy interface the engine consumes: `minimum_history` and
`generate_signal` over a candle window and the portfolio. -/
structure Strategy where
  minimum_history : ℕ
  generate_signal : List (ℕ × ℚ) → Portfolio → Option Signal

/-- The backtest report (engine.py lines 121–127). -/
structure Report where
  trades : List Trade
  ending_equity : ℚ
  total_return : ℚ
  max_drawdown : ℚ
  equity_curve : List (ℕ × ℚ)
deriving Repr, DecidableEq

/-- Failures `backtest` can raise: the empty-data `ValueError`, or an
exception propagating out of `submit_order` during an iteration. -/
inductive BacktestError where
  | noData
  | iterationError (e : SubmitError)
deriving Repr, DecidableEq

/-- The replay loop of `backtest` (engine.py lines 101–112): for each window
length `idx`, generate a signal, optionally size and submit an order, then
record `(timestamp, total_equity)`. -/
def backtestLoop (cfg : BotConfig) (strat : Strategy) (candles : List (ℕ × ℚ)) :
    List ℕ → PaperBroker → List (ℕ × ℚ) →
      Except BacktestError (PaperBroker × List (ℕ × ℚ))
  | [], b, curve => .ok (b, curve)
  | idx :: rest, b, curve =>
    let window := candles.take idx
    let signal := strat.generate_signal window b.portfolio
    let price := ((window.getLast?).getD (0, 0)).2
    let step : Except BacktestError PaperBroker :=
      match signal with
      | none => .ok b
      | some sig =>
        match createOrder cfg b.portfolio sig price with
        | none => .ok b
        | some o =>
          let r := b.submit_order o price sig.timestamp
          match r.error with
          | some e => .error (.iterationError e)
          | none => .ok r.broker
    match step with
    | .error e => .error e
    | .ok b' =>
      backtestLoop cfg strat candles rest b'
        (curve ++ [(((window.getLast?).getD (0, 0)).1,
          b'.portfolio.total_equity [(cfg.symbol, price)])])

/-- `AutoTradingBot.backtest` (engine.py lines 83–132): reset, fetch (the
candle list is the fetched history), fail on empty data, replay windows of
length `minimum_history .. len`, then assemble the report. -/
def backtest (cfg : BotConfig) (strat : Strategy) (b : PaperBroker)
    (candles : List (ℕ × ℚ)) : Except BacktestError Report :=
  let b₀ := b.reset (some cfg.cash)
  if candles.isEmpty then .error .noData
  else
    match backtestLoop cfg strat candles
        (List.range' strat.minimum_history
          (candles.length + 1 - strat.minimum_history)) b₀ [] with
    | .error e => .error e
    | .ok (b', curve) =>
      let closing_price := ((candles.getLast?).getD (0, 0)).2
      let ending_equity := b'.portfolio.total_equity [(cfg.symbol, closing_price)]
      let total_return := ending_equity / cfg.cash - 1
      .ok { trades := b'.trade_history
            ending_equity := ending_equity
            total_return := total_return
            max_drawdown := calculateMaxDrawdown curve
            equity_curve := curve }

/-- C9. A non-empty history shorter than the strategy's `minimum_history`
does not raise: the replay loop never runs and the report has an empty
equity curve, no trades, max_drawdown 0, total_return 0 and ending equity
equal to the configured starting cash. -/
theorem backtest_short_history (cfg : BotConfig) (strat : Strategy)
    (b : PaperBroker) (candles : List (ℕ × ℚ))
    (hne : candles ≠ []) (hlen : candles.length < strat.minimum_history)
    (hcash : 0 < cfg.cash) :
    backtest cfg strat b candles =
      .ok { trades := [], ending_equity := cfg.cash, total_return := 0,
            max_drawdown := 0, equity_curve := [] } := by
  have hempty : ¬(candles.isEmpty = true) := by
    simp [List.isEmpty_iff, hne]
  have hrange : candles.length + 1 - strat.minimum_history = 0 := by omega
  have hloop : backtestLoop cfg strat candles
      (List.range' strat.minimum_history
        (candles.length + 1 - strat.minimum_history))
      (b.reset (some cfg.cash)) [] =
      .ok (b.reset (some cfg.cash), []) := by
    rw [hrange]
    rfl
  simp only [backtest, if_neg hempty, hloop]
  have heq : (b.reset (some cfg.cash)).portfolio.total_equity
      [(cfg.symbol, ((candles.getLast?).getD (0, 0)).2)] = cfg.cash := by
    simp [PaperBroker.reset, Portfolio.reset, Portfolio.total_equity,
      Portfolio.market_value_map]
  rw [heq]
  have hret : cfg.cash / cfg.cash - 1 = 0 := by
    rw [div_self (ne_of_gt hcash)]; ring
  rw [hret]
  rfl

/-- A strategy whose minimum history is 5 bars and which never signals, for
the short-history witness. -/
def c9strat : Strategy := ⟨5, fun _ _ => none⟩

/-- Witness for C9: one bar of history against a 5-bar minimum yields the
degenerate report. -/
theorem backtest_short_history_witness :
    ([((0 : ℕ), (10 : ℚ))] ≠ [] ∧ [((0 : ℕ), (10 : ℚ))].length < c9strat.minimum_history
      ∧ (0 : ℚ) < 1000) ∧
    backtest ⟨"A", 1000, 1/10, 1/2⟩ c9strat ⟨⟨0, 0, []⟩, 5, 0, []⟩ [(0, 10)] =
      .ok { trades := [], ending_equity := 1000, total_return := 0,
            max_drawdown := 0, equity_curve := [] } :=
  ⟨⟨by simp, by norm_num [c9strat], by norm_num⟩,
   backtest_short_history ⟨"A", 1000, 1/10, 1/2⟩ c9strat ⟨⟨0, 0, []⟩, 5, 0, []⟩
     [(0, 10)] (by simp) (by norm_num [c9strat]) (by norm_num)⟩

end Autotrader
